import Mathlib

/-!
# Front-end logic of the stock-screening dashboard (`web/static/js/app.js`)

A shallow embedding of the three pieces of logic in `app.js` that carry behaviour:

* `loadStocks`: the paged collector, a `do … while (page <= totalPages)` loop around
  `fetch` that concatenates the pages of `/api/stocks`;
* `showStockModal`: the reshaping of a newest-first time series into oldest-first
  parallel arrays for the chart;
* `renderStrategiesConfig` / `saveConfig`: the form round trip of the strategy
  configuration with its numeric coercion.

The network is an explicit parameter: a `Server` maps the page number of a request to what
`await fetch(…)` followed by `await response.json()` produces, either a parsed body or a
thrown error.  The loop is run with a fuel bound, since for an arbitrary server it need
not stop; termination results state how much fuel is enough.
-/

namespace AppJs

/-! ## The paged collector (`loadStocks`) -/

/-- The parsed body of `GET /api/stocks?page=…&per_page=500`, with the four members that
`loadStocks` reads: `result.success`, `result.data`, `result.total`, `result.total_pages`. -/
structure PageResponse (α : Type) where
  success : Bool
  data : List α
  total : Int
  total_pages : Int
deriving DecidableEq, Repr

/-- What the two `await`s of one loop iteration produce: a parsed body, or an exception
(network failure or JSON parse failure) carrying `error.message`. -/
inductive FetchResult (α : Type) where
  | resolved (result : PageResponse α)
  | rejected (message : String)
deriving DecidableEq, Repr

/-- The backend as seen by the loop: page number of the request ↦ result of the fetch. -/
abbrev Server (α : Type) := Nat → FetchResult α

/-- The three `let` variables of `loadStocks`. -/
structure LoopState (α : Type) where
  allStocks : List α
  page : Nat
  totalPages : Int
deriving DecidableEq, Repr

/-- How one execution of the `do { … }` body ends. -/
inductive BodyResult (α : Type) where
  /-- the `if (result.success)` branch ran to its end -/
  | completed (s : LoopState α)
  /-- the `else { break; }` branch -/
  | broke (s : LoopState α)
  /-- one of the `await`s threw -/
  | threw (message : String)
deriving DecidableEq, Repr

/-- What `loadStocks` leaves behind: either `renderStocks(allStocks)` was called, or the
`catch` block replaced the table body by the failure text built from `error.message`. -/
inductive Outcome (α : Type) where
  | rendered (stocks : List α)
  | failed (message : String)
deriving DecidableEq, Repr

/-- An execution of `loadStocks`: the page numbers of the requests issued, in order, and
the final outcome. -/
structure Run (α : Type) where
  requests : List Nat
  outcome : Outcome α
deriving DecidableEq, Repr

/-- Record one more request in front of the requests of the rest of the execution. -/
def Run.after {α : Type} (page : Nat) (r : Run α) : Run α :=
  { r with requests := page :: r.requests }

/-- The body of the `do … while` loop (lines 77–87): fetch the current page; on
`result.success` append `result.data`, overwrite `totalPages`, increment `page`;
otherwise `break`. -/
def loopBody {α : Type} (server : Server α) (s : LoopState α) : BodyResult α :=
  match server s.page with
  | .rejected message => .threw message
  | .resolved result =>
    if result.success then
      .completed
        { allStocks := s.allStocks ++ result.data
          totalPages := result.total_pages
          page := s.page + 1 }
    else
      .broke s

/-- The `do { … } while (page <= totalPages)` loop followed by `renderStocks(allStocks)`,
inside the `try`/`catch`.  `fuel` bounds the number of iterations; `none` means the bound
was reached before the loop ended. -/
def doWhile {α : Type} (server : Server α) : Nat → LoopState α → Option (Run α)
  | 0, _ => none
  | fuel + 1, s =>
    match loopBody server s with
    | .threw message => some { requests := [s.page], outcome := .failed message }
    | .broke s' => some { requests := [s.page], outcome := .rendered s'.allStocks }
    | .completed s' =>
      if (s'.page : Int) ≤ s'.totalPages then
        (doWhile server fuel s').map (Run.after s.page)
      else
        some { requests := [s.page], outcome := .rendered s'.allStocks }

/-- The function `loadStocks`: `allStocks = []`, `page = 1`, `totalPages = 1`, then the
loop. -/
def loadStocks {α : Type} (server : Server α) (fuel : Nat) : Option (Run α) :=
  doWhile server fuel { allStocks := [], page := 1, totalPages := 1 }

/-- The `data` of the body served for a page (nothing when the fetch throws). -/
def pageData {α : Type} (server : Server α) (page : Nat) : List α :=
  match server page with
  | .resolved result => result.data
  | .rejected _ => []

/-- The concatenation, in page order, of the data of `count` consecutive pages starting at
`first`. -/
def pagesData {α : Type} (server : Server α) (first count : Nat) : List α :=
  (List.range' first count).flatMap (pageData server)

/-- The `p`-th consecutive slice of `L` of length at most `n` (pages are 1-indexed): the
items at positions `(p-1)*n .. p*n-1`. -/
def pageSlice {α : Type} (L : List α) (n p : Nat) : List α :=
  (L.drop ((p - 1) * n)).take n

/-- The number of pages of size `n` needed for `count` items: `⌈count / n⌉`. -/
def ceilDiv (count n : Nat) : Nat :=
  (count + n - 1) / n

/-- A backend that is consistent across pages: it serves the list `L` in pages of size `n`
and declares `total = |L|` and `total_pages = ⌈|L| / n⌉` on every page. -/
def consistentServer {α : Type} (L : List α) (n : Nat) : Server α :=
  fun p =>
    .resolved
      { success := true
        data := pageSlice L n p
        total := L.length
        total_pages := ceilDiv L.length n }

/-- A backend given by the finite list of its answers to pages `1, 2, …`; a request past
the end of the list is answered with an unsuccessful empty body. -/
def scriptedServer {α : Type} (answers : List (FetchResult α)) : Server α :=
  fun p =>
    match answers[p - 1]? with
    | some answer => answer
    | none => .resolved { success := false, data := [], total := 0, total_pages := 0 }

/-! ## Time-series shaping (`showStockModal`) -/

/-- One point of the payload of `GET /api/stock/{code}`; `ν` is the type of JSON numbers.
The API returns the points newest first. -/
structure TimeSeriesPoint (ν : Type) where
  date : String
  close : ν
  high : ν
  low : ν
  volume : ν
  market_cap : ν
  K : ν
  D : ν
  J : ν
deriving DecidableEq, Repr

/-- The arrays that exist while `showStockModal` runs, by identity: the array `data` the
caller passed in, and the array allocated by the spread expression `[...data]`. -/
structure ModalArrays (ν : Type) where
  data : List (TimeSeriesPoint ν)
  copy : List (TimeSeriesPoint ν)
deriving DecidableEq, Repr

/-- The spread expression `[...data]`: allocates a new array with the elements of `data`. -/
def spreadData {ν : Type} (data : List (TimeSeriesPoint ν)) : ModalArrays ν :=
  { data := data, copy := data }

/-- The call `.reverse()` on the array produced by the spread: `Array.prototype.reverse`
reverses its receiver in place (and returns it); the receiver here is the copy. -/
def reverseCopy {ν : Type} (arrays : ModalArrays ν) : ModalArrays ν :=
  { arrays with copy := arrays.copy.reverse }

/-- What `showStockModal` computes: the title, the five arrays handed to `new Chart` as
`labels` and as the `data` of the four datasets, the point `latest` quoted in the info
block, and the content of the caller's array when the function returns. -/
structure ModalView (ν : Type) where
  title : String
  labels : List String
  prices : List ν
  kValues : List ν
  dValues : List ν
  jValues : List ν
  latest : TimeSeriesPoint ν
  dataAfter : List (TimeSeriesPoint ν)
deriving DecidableEq, Repr

/-- The function `showStockModal(code, data)` (lines 149–269).  `latest = data[0]` is
`undefined` for an empty array and reading `latest.J` then throws, which is `none` here. -/
def showStockModal {ν : Type} (code : String) (data : List (TimeSeriesPoint ν)) :
    Option (ModalView ν) :=
  let arrays := reverseCopy (spreadData data)
  let reversedData := arrays.copy
  let labels := reversedData.map (fun d => d.date)
  let prices := reversedData.map (fun d => d.close)
  let kValues := reversedData.map (fun d => d.K)
  let dValues := reversedData.map (fun d => d.D)
  let jValues := reversedData.map (fun d => d.J)
  match arrays.data[0]? with
  | none => none
  | some latest =>
    some
      { title := "股票详情: " ++ code
        labels := labels
        prices := prices
        kValues := kValues
        dValues := dValues
        jValues := jValues
        latest := latest
        dataAfter := arrays.data }

/-- The newest-first series of the specification's example, dates 3/3, 2/2, 1/1. -/
def exampleSeries : List (TimeSeriesPoint Int) :=
  [ { date := "3/3", close := 13, high := 14, low := 12, volume := 300, market_cap := 50,
      K := 63, D := 53, J := 83 },
    { date := "2/2", close := 12, high := 13, low := 11, volume := 200, market_cap := 49,
      K := 62, D := 52, J := 82 },
    { date := "1/1", close := 11, high := 12, low := 10, volume := 100, market_cap := 48,
      K := 61, D := 51, J := 81 } ]

/-! ## Numbers and strings of the host language

`saveConfig` relies on three built-ins of ECMAScript: `isNaN`, `Number` (both go through
the abstract operation *StringToNumber* when applied to a string) and the truthiness of a
value.  *StringToNumber* is written out below after the grammar `StringNumericLiteral`.
A finite result is kept as the exact mathematical value of the literal; its rounding to
an IEEE-754 double is outside this development. -/

/-- A value of the ECMAScript type Number. -/
inductive JSNumber where
  | nan
  | infinity (negative : Bool)
  | finite (value : ℚ)
deriving DecidableEq, Repr

/-- The production `StrWhiteSpaceChar`: the code points of `WhiteSpace` and
`LineTerminator`. -/
def isStrWhiteSpaceChar (c : Char) : Bool :=
  let n := c.toNat
  [0x9, 0xA, 0xB, 0xC, 0xD, 0x20, 0xA0, 0x1680, 0x2028, 0x2029, 0x202F, 0x205F, 0x3000,
    0xFEFF].contains n || (0x2000 ≤ n && n ≤ 0x200A)

/-- Removal of the leading and trailing `StrWhiteSpace`. -/
def trimStrWhiteSpace (cs : List Char) : List Char :=
  ((cs.dropWhile isStrWhiteSpaceChar).reverse.dropWhile isStrWhiteSpaceChar).reverse

/-- The value of a digit in the given radix (`0-9`, `a-f`, `A-F`). -/
def digitValue (radix : Nat) (c : Char) : Option Nat :=
  let n := c.toNat
  let d : Option Nat :=
    if 48 ≤ n ∧ n ≤ 57 then some (n - 48)
    else if 97 ≤ n ∧ n ≤ 102 then some (n - 87)
    else if 65 ≤ n ∧ n ≤ 70 then some (n - 55)
    else none
  d.bind (fun v => if v < radix then some v else none)

/-- The value of a non-empty run of digits; `none` for an empty run or a foreign
character. -/
def digitsValue (radix : Nat) (cs : List Char) : Option Nat :=
  if cs.isEmpty then none
  else
    cs.foldl
      (fun acc c =>
        match acc, digitValue radix c with
        | some a, some d => some (a * radix + d)
        | _, _ => none)
      (some 0)

/-- Cut a text at the first character satisfying `p`: the part before it, and the part
after it when there is such a character. -/
def cutAt (p : Char → Bool) (cs : List Char) : List Char × Option (List Char) :=
  match cs.span (fun c => !p c) with
  | (before, []) => (before, none)
  | (before, _ :: after) => (before, some after)

/-- The production `SignedInteger` of an exponent part. -/
def parseSignedInteger : List Char → Option Int
  | '+' :: ds => (digitsValue 10 ds).map Int.ofNat
  | '-' :: ds => (digitsValue 10 ds).map (fun n => -(n : Int))
  | ds => (digitsValue 10 ds).map Int.ofNat

/-- The outcome of parsing a text as `StringNumericLiteral`: no parse, an infinity, or
the digits as a coefficient with a power of ten. -/
inductive NumericLiteral where
  | invalid
  | infinity (negative : Bool)
  | scaled (negative : Bool) (coefficient : Nat) (exponent : Int)
deriving DecidableEq, Repr

/-- The production `StrUnsignedDecimalLiteral`: `Infinity`, or digits with an optional
fraction (`1.5`, `.5`, `5.`) and an optional exponent part. -/
def parseUnsignedDecimal (negative : Bool) (cs : List Char) : NumericLiteral :=
  if cs = "Infinity".toList then .infinity negative
  else
    let (mantissa, exponentPart) := cutAt (fun c => c == 'e' || c == 'E') cs
    let (whole, fraction) := cutAt (fun c => c == '.') mantissa
    let fractionDigits := fraction.getD []
    let exponent : Option Int :=
      match exponentPart with
      | none => some 0
      | some e => parseSignedInteger e
    match digitsValue 10 (whole ++ fractionDigits), exponent with
    | some coefficient, some e => .scaled negative coefficient (e - fractionDigits.length)
    | _, _ => .invalid

/-- The production `NonDecimalIntegerLiteral` after its prefix. -/
def parseRadix (radix : Nat) (ds : List Char) : NumericLiteral :=
  match digitsValue radix ds with
  | some v => .scaled false v 0
  | none => .invalid

/-- The production `StringNumericLiteral`: empty or white space only (value `0`), a
binary, octal or hexadecimal integer without sign, or a signed decimal literal. -/
def parseStringNumericLiteral (text : List Char) : NumericLiteral :=
  match trimStrWhiteSpace text with
  | [] => .scaled false 0 0
  | '0' :: 'x' :: ds => parseRadix 16 ds
  | '0' :: 'X' :: ds => parseRadix 16 ds
  | '0' :: 'o' :: ds => parseRadix 8 ds
  | '0' :: 'O' :: ds => parseRadix 8 ds
  | '0' :: 'b' :: ds => parseRadix 2 ds
  | '0' :: 'B' :: ds => parseRadix 2 ds
  | '+' :: cs => parseUnsignedDecimal false cs
  | '-' :: cs => parseUnsignedDecimal true cs
  | cs => parseUnsignedDecimal false cs

/-- The number denoted by a parsed literal; no parse is `NaN`. -/
def NumericLiteral.value : NumericLiteral → JSNumber
  | .invalid => .nan
  | .infinity negative => .infinity negative
  | .scaled negative coefficient exponent =>
    .finite ((if negative then -1 else 1) * (coefficient : ℚ) * (10 : ℚ) ^ exponent)

/-- The built-in `Number(value)` applied to a string (*StringToNumber*). -/
def toNumber (value : String) : JSNumber :=
  (parseStringNumericLiteral value.toList).value

/-- The built-in `isNaN(value)` applied to a string: `Number(value)` is `NaN`. -/
def isNaN (value : String) : Bool :=
  toNumber value == .nan

/-- A parameter value of the strategy configuration: a number or a string. -/
inductive JSValue where
  | number (n : JSNumber)
  | string (s : String)
deriving DecidableEq, Repr

/-- Truthiness of a primitive: `0`, `NaN` and the empty string are falsy. -/
def JSValue.truthy : JSValue → Bool
  | .number .nan => false
  | .number (.finite q) => q != 0
  | .number (.infinity _) => true
  | .string s => s != ""

/-! ## The strategy configuration form (`renderStrategiesConfig`, `saveConfig`) -/

/-- A plain object, as the list of its own enumerable properties in creation order. -/
abbrev JSObject (β : Type) := List (String × β)

/-- The parameters of one strategy. -/
abbrev ParamsObject := JSObject JSValue

/-- The strategy configuration: strategy name ↦ parameter name ↦ value. -/
abbrev ConfigObject := JSObject ParamsObject

/-- Create or overwrite an own property; an existing property keeps its position. -/
def setOwnProperty {β : Type} : JSObject β → String → β → JSObject β
  | [], key, v => [(key, v)]
  | (k, w) :: rest, key, v =>
    if k = key then (k, v) :: rest else (k, w) :: setOwnProperty rest key v

/-- The assignment `object[key] = value` of a primitive `value` on a plain object.  Every
key creates or overwrites an own property, except `__proto__`: that one is an accessor
inherited from `Object.prototype` whose setter ignores values that are not objects. -/
def assignProperty (object : JSObject JSValue) (key : String) (value : JSValue) :
    JSObject JSValue :=
  if key = "__proto__" then object else setOwnProperty object key value

/-- The methods every plain object inherits from `Object.prototype`. -/
def objectPrototypeMethods : List String :=
  ["constructor", "__defineGetter__", "__defineSetter__", "hasOwnProperty",
   "__lookupGetter__", "__lookupSetter__", "isPrototypeOf", "propertyIsEnumerable",
   "toString", "valueOf", "toLocaleString"]

/-- The `<input>` element written by the template of `renderStrategiesConfig`, with the
attributes `name`, `value`, `data-strategy` and `data-param`. -/
structure InputElement where
  name : String
  value : String
  dataStrategy : String
  dataParam : String
deriving DecidableEq, Repr

/-- The `<div class="param-row">` of one parameter: a label and an input. -/
structure ParamRow where
  label : String
  input : InputElement
deriving DecidableEq, Repr

/-- The `<div class="strategy-config-item">` of one strategy: the `data-strategy`
attribute, the `<h4>` heading and one row per parameter. -/
structure StrategyConfigItem where
  dataStrategy : String
  heading : String
  rows : List ParamRow
deriving DecidableEq, Repr

/-- The text a template literal inserts for a value: a string as it is, a number through
`Number::toString`, which is passed in as `numberToString`. -/
def JSValue.toText (numberToString : JSNumber → String) : JSValue → String
  | .number n => numberToString n
  | .string s => s

/-- The function `renderStrategiesConfig(config)` (lines 378–406): the content it gives to
`#strategies-config`, as the element tree that the markup of the template denotes (the
names and values are taken as the attribute values and texts they are written into). -/
def renderStrategiesConfig (numberToString : JSNumber → String) (config : ConfigObject) :
    List StrategyConfigItem :=
  config.map fun (strategyName, params) =>
    { dataStrategy := strategyName
      heading := strategyName
      rows := params.map fun (paramName, value) =>
        { label := paramName ++ ":"
          input :=
            { name := strategyName ++ "." ++ paramName
              value := value.toText numberToString
              dataStrategy := strategyName
              dataParam := paramName } } }

/-- The call `document.querySelectorAll('#strategies-config input')`: the inputs of the
container in document order. -/
def querySelectorAllInputs (container : List StrategyConfigItem) : List InputElement :=
  container.flatMap fun item => item.rows.map fun row => row.input

/-- The coercion of lines 416–421: `let value = input.value`, replaced by `Number(value)`
when `!isNaN(value) && value !== ''`. -/
def coerceValue (value : String) : JSValue :=
  if !isNaN value && value != "" then .number (toNumber value) else .string value

/-- What the `forEach` of `saveConfig` can change: the own properties of the local
`config`, and, through `config['__proto__'][param] = value`, the properties of
`Object.prototype`, recorded here as the primitives written onto it. -/
structure SaveState where
  config : ConfigObject
  objectPrototype : JSObject JSValue
deriving DecidableEq, Repr

/-- What the property read `config[strategy]` finds. -/
inductive Member where
  /-- no such property on `config` or on `Object.prototype` -/
  | undefined
  /-- an own property of `config`, created by an earlier iteration -/
  | ownObject (params : ParamsObject)
  /-- the key `__proto__`: the accessor returns `Object.prototype` itself -/
  | prototypeObject
  /-- one of the methods of `Object.prototype` -/
  | method
  /-- a primitive that an earlier iteration wrote onto `Object.prototype` -/
  | primitive (value : JSValue)
deriving DecidableEq, Repr

/-- The property read `config[strategy]`: own properties first, then `Object.prototype`. -/
def getMember (st : SaveState) (key : String) : Member :=
  match st.config.lookup key with
  | some params => .ownObject params
  | none =>
    if key = "__proto__" then .prototypeObject
    else
      match st.objectPrototype.lookup key with
      | some value => .primitive value
      | none => if key ∈ objectPrototypeMethods then .method else .undefined

/-- Truthiness of what `config[strategy]` finds: objects and functions are truthy. -/
def Member.truthy : Member → Bool
  | .undefined => false
  | .primitive value => value.truthy
  | .ownObject _ => true
  | .prototypeObject => true
  | .method => true

/-- One iteration of `inputs.forEach(input => { … })` (lines 413–427).  The assignment
`config[strategy][param] = value` changes the own object of the strategy when there is
one, changes `Object.prototype` when `strategy` is `__proto__`, and otherwise lands on a
method or on a primitive, which changes neither (the script is not in strict mode). -/
def saveStep (st : SaveState) (input : InputElement) : SaveState :=
  let strategy := input.dataStrategy
  let param := input.dataParam
  let value := coerceValue input.value
  let st1 :=
    if (getMember st strategy).truthy then st
    else { st with config := setOwnProperty st.config strategy [] }
  match getMember st1 strategy with
  | .ownObject params =>
    { st1 with config := setOwnProperty st1.config strategy (assignProperty params param value) }
  | .prototypeObject =>
    { st1 with objectPrototype := assignProperty st1.objectPrototype param value }
  | .method => st1
  | .primitive _ => st1
  | .undefined => st1

/-- The object `config` that `saveConfig` passes to `JSON.stringify` as the body of
`POST /api/config`, built from the inputs of the form in a page whose `Object.prototype`
has not been modified. -/
def saveConfigBody (inputs : List InputElement) : ConfigObject :=
  (inputs.foldl saveStep { config := [], objectPrototype := [] }).config

/-- The round trip of the strategy form without any edit: render the loaded config,
collect the inputs, build the body to save. -/
def reloadConfig (numberToString : JSNumber → String) (config : ConfigObject) : ConfigObject :=
  saveConfigBody (querySelectorAllInputs (renderStrategiesConfig numberToString config))

/-- The built-in `Number::toString` on the integers below `10^21` in absolute value, which it
prints as their decimal digits, and on the infinities.  Every other number is sent to a
text that does not read back as a number, so that nothing is derived about its text. -/
def integerToString : JSNumber → String
  | .finite q => if q.den = 1 ∧ |q.num| < 10 ^ 21 then toString q.num else "NaN"
  | .infinity negative => if negative then "-Infinity" else "Infinity"
  | .nan => "NaN"

theorem doWhile_rejected {α : Type} (server : Server α) (fuel : Nat) (s : LoopState α)
    (message : String) (h : server s.page = .rejected message) :
    doWhile server (fuel + 1) s = some { requests := [s.page], outcome := .failed message } := by
  simp [doWhile, loopBody, h]

theorem doWhile_unsuccessful {α : Type} (server : Server α) (fuel : Nat) (s : LoopState α)
    (result : PageResponse α) (h : server s.page = .resolved result)
    (hs : result.success = false) :
    doWhile server (fuel + 1) s
      = some { requests := [s.page], outcome := .rendered s.allStocks } := by
  simp [doWhile, loopBody, h, hs]

theorem doWhile_last {α : Type} (server : Server α) (fuel : Nat) (s : LoopState α)
    (result : PageResponse α) (h : server s.page = .resolved result)
    (hs : result.success = true) (hlast : ¬ ((s.page + 1 : Nat) : Int) ≤ result.total_pages) :
    doWhile server (fuel + 1) s
      = some { requests := [s.page], outcome := .rendered (s.allStocks ++ result.data) } := by
  simp only [doWhile, loopBody, h, hs, if_true]
  rw [if_neg hlast]

theorem doWhile_continue {α : Type} (server : Server α) (fuel : Nat) (s : LoopState α)
    (result : PageResponse α) (h : server s.page = .resolved result)
    (hs : result.success = true) (hmore : ((s.page + 1 : Nat) : Int) ≤ result.total_pages) :
    doWhile server (fuel + 1) s
      = (doWhile server fuel
          { allStocks := s.allStocks ++ result.data
            totalPages := result.total_pages
            page := s.page + 1 }).map (Run.after s.page) := by
  simp only [doWhile, loopBody, h, hs, if_true]
  rw [if_pos hmore]

/-- The loop never reads the initial value of `totalPages`: the body overwrites it before
the `while` condition is evaluated. -/
theorem doWhile_totalPages_irrelevant {α : Type} (server : Server α) (fuel : Nat)
    (acc : List α) (page : Nat) (t t' : Int) :
    doWhile server fuel { allStocks := acc, page := page, totalPages := t }
      = doWhile server fuel { allStocks := acc, page := page, totalPages := t' } := by
  cases fuel with
  | zero => rfl
  | succ fuel =>
    cases h : server page with
    | rejected message => simp [doWhile, loopBody, h]
    | resolved result => cases hs : result.success <;> simp [doWhile, loopBody, h, hs]

/-- More fuel does not change the result of an execution that ended. -/
theorem doWhile_fuel_mono {α : Type} (server : Server α) (fuel : Nat) :
    ∀ (s : LoopState α) (r : Run α), doWhile server fuel s = some r →
      ∀ extra, doWhile server (fuel + extra) s = some r := by
  induction fuel with
  | zero => intro s r h; simp [doWhile] at h
  | succ fuel ih =>
    intro s r h extra
    have e : fuel + 1 + extra = (fuel + extra) + 1 := by omega
    rw [e]
    cases hsv : server s.page with
    | rejected message =>
      rw [doWhile_rejected server _ s message hsv] at h ⊢
      exact h
    | resolved result =>
      cases hs : result.success with
      | false =>
        rw [doWhile_unsuccessful server _ s result hsv hs] at h ⊢
        exact h
      | true =>
        by_cases hc : ((s.page + 1 : Nat) : Int) ≤ result.total_pages
        · rw [doWhile_continue server _ s result hsv hs hc] at h ⊢
          cases hrec : doWhile server fuel
              { allStocks := s.allStocks ++ result.data
                totalPages := result.total_pages
                page := s.page + 1 } with
          | none => rw [hrec] at h; simp at h
          | some r' =>
            rw [hrec] at h
            rw [ih _ r' hrec extra]
            exact h
        · rw [doWhile_last server _ s result hsv hs hc] at h ⊢
          exact h

/-- A stretch of `count` pages that all succeed and all ask for a further page: the loop
walks through it, appending their data in order, and goes on from the page after it. -/
theorem doWhile_stretch {α : Type} (server : Server α) (fuel : Nat) :
    ∀ (count : Nat) (acc : List α) (page : Nat) (t : Int),
      (∀ j, page ≤ j → j < page + count →
        ∃ result, server j = .resolved result ∧ result.success = true
          ∧ ((j + 1 : Nat) : Int) ≤ result.total_pages) →
      doWhile server (fuel + count) { allStocks := acc, page := page, totalPages := t }
        = (doWhile server fuel
            { allStocks := acc ++ pagesData server page count
              page := page + count
              totalPages := t }).map
            (fun r => { r with requests := List.range' page count ++ r.requests }) := by
  intro count
  induction count with
  | zero =>
    intro acc page t _
    simp only [pagesData, List.range'_zero, List.flatMap_nil, List.append_nil, Nat.add_zero,
      List.nil_append]
    cases doWhile server fuel { allStocks := acc, page := page, totalPages := t } <;> rfl
  | succ count ih =>
    intro acc page t h
    obtain ⟨result, hsv, hs, hc⟩ := h page (le_refl _) (by omega)
    have e : fuel + (count + 1) = (fuel + count) + 1 := by omega
    rw [e, doWhile_continue server _ _ result hsv hs hc]
    have ih' := ih (acc ++ result.data) (page + 1) result.total_pages
      (fun j h1 h2 => h j (by omega) (by omega))
    rw [ih']
    have hd : pagesData server page (count + 1)
        = result.data ++ pagesData server (page + 1) count := by
      simp [pagesData, List.range'_succ, List.flatMap_cons, pageData, hsv]
    have hp : page + 1 + count = page + (count + 1) := by omega
    rw [hd, hp, ← List.append_assoc,
      doWhile_totalPages_irrelevant server fuel _ _ result.total_pages t]
    cases doWhile server fuel
      { allStocks := acc ++ result.data ++ pagesData server (page + 1) count
        page := page + (count + 1)
        totalPages := t } with
    | none => rfl
    | some r => simp [Run.after, List.range'_succ]

/-- Pages `1 .. k-1` succeed and ask for more, page `k` is the one that ends the run: the
run issues the requests `1 .. k` and ends as the loop started at page `k` ends. -/
theorem loadStocks_reaches {α : Type} (server : Server α) (k extra : Nat) (hk : 1 ≤ k)
    (h : ∀ j, 1 ≤ j → j < k →
      ∃ result, server j = .resolved result ∧ result.success = true
        ∧ ((j + 1 : Nat) : Int) ≤ result.total_pages) :
    loadStocks server (extra + 1 + (k - 1))
      = (doWhile server (extra + 1)
          { allStocks := pagesData server 1 (k - 1), page := k, totalPages := 1 }).map
          (fun r => { r with requests := List.range' 1 (k - 1) ++ r.requests }) := by
  unfold loadStocks
  rw [doWhile_stretch server (extra + 1) (k - 1) [] 1 1 (fun j h1 h2 => h j h1 (by omega))]
  have e : 1 + (k - 1) = k := by omega
  simp [e]

theorem range_one_snoc (k : Nat) (hk : 1 ≤ k) :
    List.range' 1 (k - 1) ++ [k] = List.range' 1 k := by
  obtain ⟨c, rfl⟩ : ∃ c, k = c + 1 := ⟨k - 1, by omega⟩
  rw [List.range'_concat]
  simp [Nat.add_comm]

theorem pagesData_snoc {α : Type} (server : Server α) (k : Nat) (hk : 1 ≤ k) :
    pagesData server 1 (k - 1) ++ pageData server k = pagesData server 1 k := by
  obtain ⟨c, rfl⟩ : ∃ c, k = c + 1 := ⟨k - 1, by omega⟩
  simp [pagesData, List.range'_concat, List.flatMap_append, Nat.add_comm]

/-- When every page up to `max 1 P` succeeds and declares `total_pages = P`, the run issues
the requests `1 .. max 1 P` and renders the concatenation of their data. -/
theorem loadStocks_fixed_total_pages {α : Type} (server : Server α) (P : Nat)
    (h : ∀ j, 1 ≤ j → j ≤ max 1 P →
      ∃ result, server j = .resolved result ∧ result.success = true
        ∧ result.total_pages = (P : Int))
    (fuel : Nat) (hfuel : max 1 P ≤ fuel) :
    loadStocks server fuel
      = some { requests := List.range' 1 (max 1 P)
               outcome := .rendered (pagesData server 1 (max 1 P)) } := by
  have hk : 1 ≤ max 1 P := le_max_left _ _
  obtain ⟨extra, rfl⟩ : ∃ extra, fuel = extra + 1 + (max 1 P - 1) :=
    ⟨fuel - max 1 P, by omega⟩
  rw [loadStocks_reaches server (max 1 P) extra hk]
  · obtain ⟨result, hsv, hs, ht⟩ := h (max 1 P) hk (le_refl _)
    have hlast : ¬ (((max 1 P) + 1 : Nat) : Int) ≤ result.total_pages := by
      rw [ht]; push_cast; omega
    have := doWhile_last server extra
      { allStocks := pagesData server 1 (max 1 P - 1), page := max 1 P, totalPages := 1 }
      result hsv hs hlast
    rw [this]
    have hd : result.data = pageData server (max 1 P) := by simp [pageData, hsv]
    simp only [Option.map_some', hd, pagesData_snoc server _ hk, range_one_snoc _ hk]
  · intro j h1 h2
    obtain ⟨result, hsv, hs, ht⟩ := h j h1 (by omega)
    refine ⟨result, hsv, hs, ?_⟩
    rw [ht]; push_cast; omega

/-- Termination measure argument: with every declared `total_pages` at most `B`, the loop
started at any page issues consecutive requests and stops within `max 1 (B + 1 - page)`
iterations. -/
theorem doWhile_bounded {α : Type} (server : Server α) (B : Nat)
    (hB : ∀ p result, server p = .resolved result → result.total_pages ≤ (B : Int)) :
    ∀ (fuel : Nat) (s : LoopState α), max 1 (B + 1 - s.page) ≤ fuel →
      ∃ r m, doWhile server fuel s = some r ∧ 1 ≤ m ∧ m ≤ max 1 (B + 1 - s.page)
        ∧ r.requests = List.range' s.page m := by
  intro fuel
  induction fuel with
  | zero => intro s h; omega
  | succ fuel ih =>
    intro s hf
    cases hsv : server s.page with
    | rejected message =>
      exact ⟨_, 1, doWhile_rejected server _ s message hsv, le_refl _, le_max_left _ _, rfl⟩
    | resolved result =>
      cases hs : result.success with
      | false =>
        exact ⟨_, 1, doWhile_unsuccessful server _ s result hsv hs, le_refl _,
          le_max_left _ _, rfl⟩
      | true =>
        by_cases hc : ((s.page + 1 : Nat) : Int) ≤ result.total_pages
        · have hb := hB s.page result hsv
          have hlt : s.page + 1 ≤ B := by
            have : ((s.page + 1 : Nat) : Int) ≤ (B : Int) := le_trans hc hb
            exact_mod_cast this
          obtain ⟨r, m, hr, hm1, hm2, hreq⟩ := ih
            { allStocks := s.allStocks ++ result.data
              totalPages := result.total_pages
              page := s.page + 1 } (by simp only; omega)
          refine ⟨Run.after s.page r, m + 1, ?_, by omega, ?_, ?_⟩
          · rw [doWhile_continue server _ s result hsv hs hc, hr]; rfl
          · simp only at hm2; omega
          · simp only [Run.after, hreq, List.range'_succ]
        · exact ⟨_, 1, doWhile_last server _ s result hsv hs hc, le_refl _,
            le_max_left _ _, rfl⟩

theorem le_ceilDiv_mul (count n : Nat) (hn : 1 ≤ n) : count ≤ ceilDiv count n * n := by
  unfold ceilDiv
  have h1 := Nat.div_add_mod (count + n - 1) n
  have h2 := Nat.mod_lt (count + n - 1) (show n > 0 by omega)
  have h3 : n * ((count + n - 1) / n) = (count + n - 1) / n * n := Nat.mul_comm _ _
  omega

theorem flatMap_pageSlice {α : Type} (L : List α) (n : Nat) :
    ∀ count, (List.range' 1 count).flatMap (pageSlice L n) = L.take (count * n) := by
  intro count
  induction count with
  | zero => simp
  | succ count ih =>
    rw [List.range'_concat, List.flatMap_append, ih]
    have e : (count + 1) * n = count * n + n := by ring
    simp [pageSlice, e, List.take_add]

/-! ### The claims about `loadStocks` -/

/-- C1. Against a server that is consistent across pages (page `p` carries the `p`-th slice
of `L` of size `n ≥ 1`, `total = |L|`, `total_pages = ⌈|L|/n⌉`), the loop ends (any fuel of
at least `max 1 ⌈|L|/n⌉` iterations is enough), it requests the pages `1 .. max 1 ⌈|L|/n⌉`
and hands exactly `L` to `renderStocks`, whose length is the declared total. -/
theorem loadStocks_consistent_server {α : Type} (L : List α) (n : Nat) (hn : 1 ≤ n)
    (server : Server α)
    (hserver : ∀ p, 1 ≤ p → server p = .resolved
      { success := true, data := pageSlice L n p, total := L.length
        total_pages := ceilDiv L.length n })
    (fuel : Nat) (hfuel : max 1 (ceilDiv L.length n) ≤ fuel) :
    loadStocks server fuel
        = some { requests := List.range' 1 (max 1 (ceilDiv L.length n))
                 outcome := .rendered L }
      ∧ ∀ p result, 1 ≤ p → server p = .resolved result → (L.length : Int) = result.total := by
  constructor
  · rw [loadStocks_fixed_total_pages server (ceilDiv L.length n)
      (fun j h1 _ => ⟨_, hserver j h1, rfl, rfl⟩) fuel hfuel]
    have hd : pagesData server 1 (max 1 (ceilDiv L.length n))
        = (List.range' 1 (max 1 (ceilDiv L.length n))).flatMap (pageSlice L n) := by
      unfold pagesData
      apply List.flatMap_congr
      intro p hp
      have h1 : 1 ≤ p := (List.mem_range'_1.mp hp).1
      simp [pageData, hserver p h1]
    rw [hd, flatMap_pageSlice]
    have hlen : L.length ≤ max 1 (ceilDiv L.length n) * n :=
      le_trans (le_ceilDiv_mul _ n hn) (Nat.mul_le_mul_right n (le_max_right _ _))
    rw [List.take_of_length_le hlen]
  · intro p result h1 hp
    rw [hserver p h1] at hp
    cases hp
    rfl

/-- C1, the scenario of the specification: 1200 items at 500 per page give the requests
1, 2, 3 and a collection of all 1200 items. -/
theorem loadStocks_consistent_server_witness :
    loadStocks (consistentServer (List.range 1200) 500) 3
      = some { requests := [1, 2, 3], outcome := .rendered (List.range 1200) } := by
  have h := (loadStocks_consistent_server (List.range 1200) 500 (by decide)
    (consistentServer (List.range 1200) 500) (fun _ _ => rfl) 3
    (by rw [List.length_range]; decide)).1
  have e : List.range' 1 (max 1 (ceilDiv (List.range 1200).length 500)) = [1, 2, 3] := by
    rw [List.length_range]; decide
  rw [e] at h
  exact h

/-- C2, as stated, fails: a server that answers every page with `success = true` and
`total_pages = 0` is still asked for page 1, so the number of fetches is 1 and not 0. -/
theorem loadStocks_total_pages_zero_still_fetches :
    ¬ (∀ (P : Nat) (server : Server Nat),
        (∀ p, ∃ result, server p = .resolved result ∧ result.success = true
          ∧ result.total_pages = (P : Int)) →
        ∀ fuel r, loadStocks server fuel = some r → r.requests.length = P) := by
  intro h
  have := h 0 (fun _ => .resolved { success := true, data := [], total := 0, total_pages := 0 })
    (fun _ => ⟨_, rfl, rfl, rfl⟩) 1 { requests := [1], outcome := .rendered [] } (by decide)
  simp at this

/-- C2, amended. When the server answers every page with `success = true` and
`total_pages = P`, the loop ends (fuel `max 1 P` is enough) after exactly `max 1 P` fetches,
for the pages `1 .. max 1 P` in ascending order, and renders the concatenation of the data
of these pages in page order, whose length is the sum of the lengths of the pages. -/
theorem loadStocks_fetches_declared_pages {α : Type} (server : Server α) (P : Nat)
    (hserver : ∀ p, ∃ result, server p = .resolved result ∧ result.success = true
      ∧ result.total_pages = (P : Int))
    (fuel : Nat) (hfuel : max 1 P ≤ fuel) :
    ∃ stocks,
      loadStocks server fuel
        = some { requests := List.range' 1 (max 1 P), outcome := .rendered stocks }
      ∧ (List.range' 1 (max 1 P)).length = max 1 P
      ∧ stocks = (List.range' 1 (max 1 P)).flatMap (pageData server)
      ∧ stocks.length
          = ((List.range' 1 (max 1 P)).map (fun p => (pageData server p).length)).sum := by
  refine ⟨pagesData server 1 (max 1 P), ?_, by simp, rfl, ?_⟩
  · exact loadStocks_fixed_total_pages server P (fun j _ _ => hserver j) fuel hfuel
  · simp only [pagesData, List.length_flatMap]
    rfl

/-- C2 amended, at a server declaring two pages. -/
theorem loadStocks_fetches_declared_pages_witness :
    ∃ stocks,
      loadStocks (fun p => FetchResult.resolved
          { success := true, data := [10 * p, 10 * p + 1], total := 4, total_pages := 2 }) 2
        = some { requests := List.range' 1 (max 1 2), outcome := .rendered stocks }
      ∧ (List.range' 1 (max 1 2)).length = max 1 2
      ∧ stocks = (List.range' 1 (max 1 2)).flatMap
          (pageData (fun p => FetchResult.resolved
            { success := true, data := [10 * p, 10 * p + 1], total := 4, total_pages := 2 }))
      ∧ stocks.length
          = ((List.range' 1 (max 1 2)).map (fun p => (pageData (fun p => FetchResult.resolved
            { success := true, data := [10 * p, 10 * p + 1], total := 4, total_pages := 2 })
              p).length)).sum :=
  loadStocks_fetches_declared_pages _ 2 (fun _ => ⟨_, rfl, rfl, rfl⟩) 2 (by decide)

/-- C3. Keep-partial on application failure: if the pages `1 .. k-1` answer with
`success = true` and declare `total_pages ≥ k`, and page `k` answers with
`success = false`, then the loop ends (fuel `k` is enough) without throwing, the requests
issued are exactly `1 .. k` (none for `k+1`), and `renderStocks` receives the concatenation
of the data of the pages `1 .. k-1`, without the data of page `k`. -/
theorem loadStocks_keeps_earlier_pages_on_unsuccessful_page {α : Type} (server : Server α)
    (k : Nat) (hk : 1 ≤ k)
    (hbefore : ∀ j, 1 ≤ j → j < k →
      ∃ result, server j = .resolved result ∧ result.success = true
        ∧ (k : Int) ≤ result.total_pages)
    (failing : PageResponse α) (hat : server k = .resolved failing)
    (hfail : failing.success = false)
    (fuel : Nat) (hfuel : k ≤ fuel) :
    loadStocks server fuel
      = some { requests := List.range' 1 k
               outcome := .rendered ((List.range' 1 (k - 1)).flatMap (pageData server)) } := by
  obtain ⟨extra, rfl⟩ : ∃ extra, fuel = extra + 1 + (k - 1) := ⟨fuel - k, by omega⟩
  rw [loadStocks_reaches server k extra hk]
  · rw [doWhile_unsuccessful server extra _ failing hat hfail]
    simp only [Option.map_some', range_one_snoc k hk]
    rfl
  · intro j h1 h2
    obtain ⟨result, hsv, hs, ht⟩ := hbefore j h1 h2
    refine ⟨result, hsv, hs, ?_⟩
    have : ((j + 1 : Nat) : Int) ≤ (k : Int) := by exact_mod_cast h2
    exact le_trans this ht

/-- C3 at page 2 of 3 failing: only the data of page 1 is rendered, page 3 is never
requested. -/
theorem loadStocks_keeps_earlier_pages_on_unsuccessful_page_witness :
    loadStocks (scriptedServer
        [.resolved { success := true, data := [10, 11], total := 6, total_pages := 3 },
         .resolved { success := false, data := [20, 21], total := 6, total_pages := 3 },
         .resolved { success := true, data := [30, 31], total := 6, total_pages := 3 }]) 2
      = some { requests := List.range' 1 2
               outcome := .rendered ((List.range' 1 (2 - 1)).flatMap (pageData (scriptedServer
        [.resolved { success := true, data := [10, 11], total := 6, total_pages := 3 },
         .resolved { success := false, data := [20, 21], total := 6, total_pages := 3 },
         .resolved { success := true, data := [30, 31], total := 6, total_pages := 3 }]))) } :=
  loadStocks_keeps_earlier_pages_on_unsuccessful_page _ 2 (by decide)
    (fun j h1 h2 => by
      obtain rfl : j = 1 := by omega
      exact ⟨_, rfl, rfl, by decide⟩)
    _ rfl rfl 2 (by decide)

/-- C4. All-or-nothing on transport failure: if the pages `1 .. k-1` succeed (each asking
for the next page, so that page `k` is fetched) and the fetch of page `k` throws, then the
loop ends (fuel `k` is enough), the requests issued are exactly `1 .. k`, `renderStocks` is
not called with anything, and the outcome is the failure text carrying the message of the
thrown error. -/
theorem loadStocks_discards_all_on_throw {α : Type} (server : Server α)
    (k : Nat) (hk : 1 ≤ k)
    (hbefore : ∀ j, 1 ≤ j → j < k →
      ∃ result, server j = .resolved result ∧ result.success = true
        ∧ ((j + 1 : Nat) : Int) ≤ result.total_pages)
    (message : String) (hat : server k = .rejected message)
    (fuel : Nat) (hfuel : k ≤ fuel) :
    loadStocks server fuel
        = some { requests := List.range' 1 k, outcome := .failed message }
      ∧ ∀ r stocks, loadStocks server fuel = some r → r.outcome ≠ .rendered stocks := by
  have main : loadStocks server fuel
      = some { requests := List.range' 1 k, outcome := .failed message } := by
    obtain ⟨extra, rfl⟩ : ∃ extra, fuel = extra + 1 + (k - 1) := ⟨fuel - k, by omega⟩
    rw [loadStocks_reaches server k extra hk hbefore]
    rw [doWhile_rejected server extra _ message hat]
    simp only [Option.map_some', range_one_snoc k hk]
  refine ⟨main, ?_⟩
  intro r stocks hr
  rw [main] at hr
  cases hr
  simp

/-- C4 at a transport error on page 2 (after a successful page 1) . -/
theorem loadStocks_discards_all_on_throw_witness :
    loadStocks (scriptedServer
        [.resolved { success := true, data := [10, 11], total := 6, total_pages := 3 },
         .rejected "Failed to fetch"]) 2
        = some { requests := List.range' 1 2, outcome := .failed "Failed to fetch" }
      ∧ ∀ r stocks, loadStocks (scriptedServer
        [.resolved { success := true, data := [10, 11], total := 6, total_pages := 3 },
         .rejected "Failed to fetch"]) 2 = some r → r.outcome ≠ .rendered stocks :=
  loadStocks_discards_all_on_throw _ 2 (by decide)
    (fun j h1 h2 => by
      obtain rfl : j = 1 := by omega
      exact ⟨_, rfl, rfl, by decide⟩)
    "Failed to fetch" rfl 2 (by decide)

/-- C5, as stated, fails: a first page with `success = true`, `total_pages = 0` and a
non-empty `data` yields a non-empty collection, since `data` is appended before the
`while` condition is looked at. -/
theorem loadStocks_zero_total_pages_keeps_first_page :
    ¬ (∀ (server : Server Nat) (first : PageResponse Nat),
        server 1 = .resolved first →
        (first.total_pages = 0 ∨ first.success = false) →
        ∀ fuel r, loadStocks server fuel = some r → r.outcome = .rendered []) := by
  intro h
  have := h (fun _ => .resolved { success := true, data := [7], total := 1, total_pages := 0 })
    _ rfl (Or.inl rfl) 1 { requests := [1], outcome := .rendered [7] } (by decide)
  simp at this

/-- C5, amended. If the first page declares `total_pages = 0` or has `success = false`,
the loop ends after that single request (any fuel `≥ 1` is enough) without throwing; the
collection is empty when `success` is false, and is exactly the `data` of the first page
when `success` is true and `total_pages = 0`, hence empty whenever that `data` is empty. -/
theorem loadStocks_first_page_edge_cases {α : Type} (server : Server α)
    (first : PageResponse α) (hfirst : server 1 = .resolved first)
    (hedge : first.total_pages = 0 ∨ first.success = false)
    (fuel : Nat) (hfuel : 1 ≤ fuel) :
    loadStocks server fuel
        = some { requests := [1]
                 outcome := .rendered (if first.success then first.data else []) }
      ∧ (first.success = false ∨ first.data = [] →
          loadStocks server fuel = some { requests := [1], outcome := .rendered [] }) := by
  obtain ⟨extra, rfl⟩ : ∃ extra, fuel = extra + 1 := ⟨fuel - 1, by omega⟩
  have main : loadStocks server (extra + 1)
      = some { requests := [1]
               outcome := .rendered (if first.success then first.data else []) } := by
    unfold loadStocks
    cases hs : first.success with
    | false => rw [doWhile_unsuccessful server extra _ first hfirst hs]; rfl
    | true =>
      have ht : first.total_pages = 0 := by
        rcases hedge with h | h
        · exact h
        · rw [hs] at h; cases h
      rw [doWhile_last server extra _ first hfirst hs (by rw [ht]; simp)]
      simp
  refine ⟨main, ?_⟩
  intro hempty
  rw [main]
  rcases hempty with h | h
  · simp [h]
  · simp [h]

/-- C5 amended, at a first page that reports `success: false`. -/
theorem loadStocks_first_page_edge_cases_witness :
    loadStocks (scriptedServer
        [.resolved { success := false, data := [5], total := 9, total_pages := 4 }]) 1
        = some { requests := [1]
                 outcome := .rendered (if false then [5] else []) }
      ∧ (false = false ∨ [5] = [] →
          loadStocks (scriptedServer
            [.resolved { success := false, data := [5], total := 9, total_pages := 4 }]) 1
            = some { requests := [1], outcome := .rendered [] }) :=
  loadStocks_first_page_edge_cases _
    { success := false, data := [5], total := 9, total_pages := 4 } rfl (Or.inr rfl) 1
    (by decide)

/-- C6, as stated, fails: `totalPages` is overwritten by every successful page, so a first
page declaring `total_pages = 3` does not fix the number of requests.  Here page 2
declares `total_pages = 2` and the run stops after two requests. -/
theorem loadStocks_total_pages_refreshed :
    ¬ (∀ (server : Server Nat),
        (∃ first, server 1 = .resolved first ∧ first.total_pages = 3) →
        (∀ p, ∃ result, server p = .resolved result ∧ result.success = true) →
        ∀ fuel r, loadStocks server fuel = some r → r.requests = [1, 2, 3]) := by
  intro h
  have := h (fun p => .resolved
      { success := true, data := [p], total := 3, total_pages := if p = 1 then 3 else 2 })
    ⟨_, rfl, rfl⟩ (fun _ => ⟨_, rfl, rfl⟩) 2
    { requests := [1, 2], outcome := .rendered [1, 2] } (by decide)
  simp at this

/-- C6, amended. If the responses to the pages 1, 2 and 3 all have `success = true` and all
report `total_pages = 3`, the loop ends (fuel 3 is enough) having issued exactly the three
requests for the pages 1, 2, 3 in that order, and none for page 4. -/
theorem loadStocks_three_pages {α : Type} (server : Server α)
    (hserver : ∀ p, 1 ≤ p → p ≤ 3 →
      ∃ result, server p = .resolved result ∧ result.success = true
        ∧ result.total_pages = 3)
    (fuel : Nat) (hfuel : 3 ≤ fuel) :
    ∃ r, loadStocks server fuel = some r ∧ r.requests = [1, 2, 3] ∧ 4 ∉ r.requests := by
  refine ⟨_, loadStocks_fixed_total_pages server 3 (fun j h1 h2 => ?_) fuel hfuel, ?_, ?_⟩
  · obtain ⟨result, hsv, hs, ht⟩ := hserver j h1 (by simpa using h2)
    exact ⟨result, hsv, hs, by rw [ht]; rfl⟩
  · show List.range' 1 (max 1 3) = [1, 2, 3]
    decide
  · show 4 ∉ List.range' 1 (max 1 3)
    decide

/-- C6 amended, at a server that declares three pages on every page. -/
theorem loadStocks_three_pages_witness :
    ∃ r, loadStocks (fun p => FetchResult.resolved
          { success := true, data := [p], total := 3, total_pages := 3 }) 3 = some r
      ∧ r.requests = [1, 2, 3] ∧ 4 ∉ r.requests :=
  loadStocks_three_pages _ (fun _ _ _ => ⟨_, rfl, rfl, rfl⟩) 3 (by decide)

/-- C7. Termination through the `page <= totalPages` comparison alone: whatever the server
returns (data, failures, thrown errors), if every `total_pages` it declares is at most `B`
then the loop ends for every fuel of at least `max 1 B` iterations, after `m` fetches with
`1 ≤ m ≤ max 1 B`; the pages requested are `1, 2, …, m`, each one more than the one before,
so no page is requested twice. -/
theorem loadStocks_terminates {α : Type} (server : Server α) (B : Nat)
    (hB : ∀ p result, server p = .resolved result → result.total_pages ≤ (B : Int))
    (fuel : Nat) (hfuel : max 1 B ≤ fuel) :
    ∃ r m, loadStocks server fuel = some r ∧ 1 ≤ m ∧ m ≤ max 1 B
      ∧ r.requests.length = m ∧ r.requests = List.range' 1 m ∧ r.requests.Nodup := by
  obtain ⟨r, m, hr, h1, h2, hreq⟩ := doWhile_bounded server B hB fuel
    { allStocks := [], page := 1, totalPages := 1 } (by simpa using hfuel)
  refine ⟨r, m, hr, h1, by simpa using h2, ?_, hreq, ?_⟩
  · rw [hreq]; simp
  · rw [hreq]; exact List.nodup_range' 1 m

/-- C7 at a server that never returns an empty page and always declares two pages. -/
theorem loadStocks_terminates_witness :
    ∃ r m, loadStocks (fun p => FetchResult.resolved
          { success := true, data := [p, p], total := 4, total_pages := 2 }) 2 = some r
      ∧ 1 ≤ m ∧ m ≤ max 1 2
      ∧ r.requests.length = m ∧ r.requests = List.range' 1 m ∧ r.requests.Nodup :=
  loadStocks_terminates _ 2
    (fun _ result h => by cases h; simp) 2 (by decide)

/-! ### The claim about `showStockModal` -/

theorem getElem?_map_reverse {α β : Type} (f : α → β) (l : List α) (i : Nat)
    (h : i < l.length) :
    (l.reverse.map f)[i]? = (l[l.length - 1 - i]?).map f := by
  rw [List.getElem?_map, List.getElem?_reverse h]

theorem showStockModal_cons {ν : Type} (code : String) (newest : TimeSeriesPoint ν)
    (rest : List (TimeSeriesPoint ν)) :
    showStockModal code (newest :: rest)
      = some
          { title := "股票详情: " ++ code
            labels := (newest :: rest).reverse.map (fun d => d.date)
            prices := (newest :: rest).reverse.map (fun d => d.close)
            kValues := (newest :: rest).reverse.map (fun d => d.K)
            dValues := (newest :: rest).reverse.map (fun d => d.D)
            jValues := (newest :: rest).reverse.map (fun d => d.J)
            latest := newest
            dataAfter := newest :: rest } := by
  simp [showStockModal, reverseCopy, spreadData]

/-- C8. Time-series shaping: for a non-empty newest-first `data` of length `n`,
`showStockModal` produces `labels`, `prices`, `kValues`, `dValues`, `jValues` of length `n`
each, and for every `i < n` their `i`-th entries are the `date`, `close`, `K`, `D`, `J`
of the one point `data[n-1-i]`; the caller's array is not reordered, and `latest`, read
from `data[0]` afterwards, is still the newest point. -/
theorem showStockModal_shapes_series {ν : Type} (code : String)
    (data : List (TimeSeriesPoint ν)) (hne : data ≠ []) :
    ∃ view, showStockModal code data = some view
      ∧ view.labels.length = data.length ∧ view.prices.length = data.length
      ∧ view.kValues.length = data.length ∧ view.dValues.length = data.length
      ∧ view.jValues.length = data.length
      ∧ (∀ i, i < data.length →
          ∃ point, data[data.length - 1 - i]? = some point
            ∧ view.labels[i]? = some point.date ∧ view.prices[i]? = some point.close
            ∧ view.kValues[i]? = some point.K ∧ view.dValues[i]? = some point.D
            ∧ view.jValues[i]? = some point.J)
      ∧ view.labels = (data.map (fun d => d.date)).reverse
      ∧ view.dataAfter = data
      ∧ data[0]? = some view.latest := by
  cases data with
  | nil => exact absurd rfl hne
  | cons newest rest =>
    refine ⟨_, showStockModal_cons code newest rest, ?_, ?_, ?_, ?_, ?_, ?_, ?_, rfl, by simp⟩
    · simp
    · simp
    · simp
    · simp
    · simp
    · intro i hi
      have hlt : (newest :: rest).length - 1 - i < (newest :: rest).length := by
        simp only [List.length_cons] at hi ⊢; omega
      refine ⟨(newest :: rest)[(newest :: rest).length - 1 - i], ?_, ?_, ?_, ?_, ?_, ?_⟩
      · exact List.getElem?_eq_getElem hlt
      all_goals
        simp only []
        rw [getElem?_map_reverse _ _ i hi, List.getElem?_eq_getElem hlt]
        rfl
    · simp [List.map_reverse]

/-- C8 at the example of the specification: the dates 3/3, 2/2, 1/1 give the labels 1/1,
2/2, 3/3, and the other arrays follow the same order. -/
theorem showStockModal_shapes_series_witness :
    ∃ view, showStockModal "600000" exampleSeries = some view
      ∧ view.labels = ["1/1", "2/2", "3/3"]
      ∧ view.prices = [11, 12, 13] ∧ view.kValues = [61, 62, 63]
      ∧ view.dValues = [51, 52, 53] ∧ view.jValues = [81, 82, 83]
      ∧ view.dataAfter = exampleSeries
      ∧ exampleSeries[0]? = some view.latest := by
  obtain ⟨view, hview, _, _, _, _, _, _, _, hdata, hlatest⟩ :=
    showStockModal_shapes_series "600000" exampleSeries (by decide)
  refine ⟨view, hview, ?_, ?_, ?_, ?_, ?_, hdata, hlatest⟩
  all_goals
    simp only [showStockModal, exampleSeries, reverseCopy, spreadData] at hview
    cases hview
    rfl

/-! ### Facts about objects and the `forEach` of `saveConfig` -/

theorem toNumber_empty : toNumber "" = .finite 0 := by
  have h : parseStringNumericLiteral "".toList = .scaled false 0 0 := by decide
  unfold toNumber
  rw [h]
  simp [NumericLiteral.value]

/-! ### The claims about the configuration form -/

/-- A strategy named like a method of `Object.prototype` is lost as well: the guard
`!config[strategy]` sees the inherited method and never creates an own property. -/
theorem reloadConfig_drops_inherited_name :
    reloadConfig integerToString [("constructor", [("mode", .string "strict")])] = [] := by
  simp [reloadConfig, saveConfigBody, querySelectorAllInputs, renderStrategiesConfig,
    saveStep, getMember, Member.truthy, objectPrototypeMethods]

end AppJs
